import Mathlib

/-!
Verification of the bounded-collection transactional store of
smart-collection-api.  The definitions below are a shallow embedding of the
TypeScript source: the drizzle schema (src/db/schema.ts), the route handlers
(src/routes/collections.ts) and the name allocator (src/utils/helpers.ts).
Timestamps are modelled as natural numbers supplied by the caller; the
database is a record of lists with serial id counters; every handler is a
pure function from a store to a result paired with the store observable after
the handler returns (a throwing transaction returns the original store).
-/

/-- Row of the `collections` table (src/db/schema.ts). -/
structure Collection where
  id : Nat
  name : String
  description : Option String
  userId : String
  createdAt : Nat
  updatedAt : Nat
  deriving DecidableEq

/-- Row of the `collection_items` table (src/db/schema.ts); `itemId` is the
externally supplied item reference id. -/
structure Item where
  id : Nat
  collectionId : Nat
  itemId : String
  note : Option String
  createdAt : Nat
  deriving DecidableEq

/-- The durable state: the three tables plus the serial id sequences. -/
structure Store where
  users : List String
  collections : List Collection
  items : List Item
  nextCollectionId : Nat
  nextItemId : Nat
  deriving DecidableEq

def Store.empty : Store := ⟨[], [], [], 1, 1⟩

/-- Error kinds surfaced by the handlers, following the spec taxonomy and the
distinct error responses of src/routes/collections.ts. -/
inductive ApiError where
  | invalidInput
  | notFound
  | conflict
  | capacityExceeded
  | nameAllocationExhausted
  deriving DecidableEq

deriving instance DecidableEq for Except

/-- Model of JavaScript String.prototype.trim: strip leading and trailing
whitespace from the character sequence. -/
def jsTrim (s : String) : String :=
  String.mk (((s.data.dropWhile Char.isWhitespace).reverse.dropWhile
    Char.isWhitespace).reverse)

/-- Items of one collection (`where eq(collectionItems.collectionId, cid)`). -/
def itemsOf (s : Store) (cid : Nat) : List Item :=
  s.items.filter (fun it => it.collectionId == cid)

/-- `select count() from collection_items where collection_id = cid`. -/
def countItems (s : Store) (cid : Nat) : Nat :=
  (itemsOf s cid).length

/-- `select from collections where userId = u and id = cid`, first row. -/
def findCollection (s : Store) (u : String) (cid : Nat) : Option Collection :=
  s.collections.find? (fun c => c.userId == u && c.id == cid)

/-- `select from collection_items where collectionId = cid and itemId = ref`,
first row. -/
def findItem (s : Store) (cid : Nat) (ref : String) : Option Item :=
  s.items.find? (fun it => it.collectionId == cid && it.itemId == ref)

/-- The probe of the name allocator: does owner `u` already have a collection
called `nm`? -/
def isNameTaken (s : Store) (u : String) (nm : String) : Bool :=
  s.collections.any (fun c => c.userId == u && c.name == nm)

/-- `update collections set updatedAt = now where id = cid`. -/
def touchCollection (s : Store) (cid : Nat) (now : Nat) : Store :=
  { s with collections :=
      s.collections.map (fun c => if c.id == cid then { c with updatedAt := now } else c) }

/-- `insert into users values (u) onConflictDoNothing`. -/
def ensureUser (s : Store) (u : String) : Store :=
  if s.users.contains u then s else { s with users := s.users ++ [u] }

/-- The n-th candidate name probed by the allocator: `baseName` itself, then
`"baseName (n)"` (src/utils/helpers.ts). -/
def candidateName (base : String) (counter : Nat) : String :=
  if counter == 0 then base else base ++ " (" ++ toString counter ++ ")"

/-- The probing loop of `generateUniqueCollectionName`: while `counter < 100`,
query whether the candidate is taken; a query error is caught and the current
candidate returned; a free candidate is returned; a taken one advances the
counter.  Falling out of the loop throws (`NameAllocationExhausted`).  The
loop condition `counter < 100` is encoded structurally by the argument
`remaining = 100 - counter`. -/
def genNameFrom {ε : Type} (probe : String → Except ε Bool) (base : String)
    (counter : Nat) : Nat → Except ApiError String
  | 0 => .error .nameAllocationExhausted
  | remaining + 1 =>
    match probe (candidateName base counter) with
    | .error _ => .ok (candidateName base counter)
    | .ok false => .ok (candidateName base counter)
    | .ok true => genNameFrom probe base (counter + 1) remaining

/-- `generateUniqueCollectionName(userId, baseName)` with the database query
abstracted as a fallible probe (src/utils/helpers.ts): the loop starts at
counter 0 with all 100 attempts remaining. -/
def generateUniqueCollectionName {ε : Type} (probe : String → Except ε Bool)
    (base : String) : Except ApiError String :=
  genNameFrom probe base 0 100

/-- The store-backed probe used by the create handler: the query succeeds and
reports whether the name is taken by the owner. -/
def storeProbe (s : Store) (u : String) : String → Except Unit Bool :=
  fun nm => .ok (isNameTaken s u nm)

/-- Zod validation of CreateCollectionSchema (src/models/types.ts). -/
def validCreateInput (name : String) (descr : Option String) : Bool :=
  1 ≤ name.length && name.length ≤ 255 &&
    (match descr with | none => true | some d => d.length ≤ 1000)

/-- Zod validation of AddItemSchema (src/models/types.ts). -/
def validAddInput (ref : String) (note : Option String) : Bool :=
  1 ≤ ref.length && ref.length ≤ 255 &&
    (match note with | none => true | some n => n.length ≤ 500)

/-- POST /collections: ensure the user row, allocate a unique name, insert the
collection.  The user row insert precedes the allocation, so an exhausted
allocation still leaves the ensured user row behind. -/
def createCollection (s : Store) (u name : String) (descr : Option String)
    (now : Nat) : Except ApiError Collection × Store :=
  if validCreateInput name descr then
    let s1 := ensureUser s u
    match generateUniqueCollectionName (storeProbe s1 u) name with
    | .error e => (.error e, s1)
    | .ok uniqueName =>
      let c : Collection :=
        { id := s1.nextCollectionId, name := uniqueName,
          description := match descr with
            | some d => if d == "" then none else some d
            | none => none,
          userId := u, createdAt := now, updatedAt := now }
      (.ok c, { s1 with collections := s1.collections ++ [c],
                        nextCollectionId := s1.nextCollectionId + 1 })
  else (.error .invalidInput, s)

/-- POST /collections/:id/items: owner check, duplicate check, capacity
pre-check (`currentCount >= 5`), insert with trimmed note, touch the
collection's updatedAt. -/
def addItem (s : Store) (u : String) (cid : Nat) (ref : String)
    (note : Option String) (now : Nat) : Except ApiError Item × Store :=
  if !validAddInput ref note then (.error .invalidInput, s)
  else if cid == 0 then (.error .invalidInput, s)
  else
    match findCollection s u cid with
    | none => (.error .notFound, s)
    | some _ =>
      if (findItem s cid ref).isSome then (.error .conflict, s)
      else if 5 ≤ countItems s cid then (.error .capacityExceeded, s)
      else
        let it : Item :=
          { id := s.nextItemId, collectionId := cid, itemId := ref,
            note := match note with
              | some n => if jsTrim n == "" then none else some (jsTrim n)
              | none => none,
            createdAt := now }
        let s1 : Store :=
          { s with items := s.items ++ [it], nextItemId := s.nextItemId + 1 }
        (.ok it, touchCollection s1 cid now)

/-- DELETE /collections/:collectionId/items/:itemId: owner check, delete the
matching rows, 404 when nothing was deleted, touch updatedAt. -/
def removeItem (s : Store) (u : String) (cid : Nat) (ref : String)
    (now : Nat) : Except ApiError Unit × Store :=
  if cid == 0 then (.error .invalidInput, s)
  else if (jsTrim ref).length == 0 then (.error .invalidInput, s)
  else
    match findCollection s u cid with
    | none => (.error .notFound, s)
    | some _ =>
      if (s.items.filter (fun it => it.collectionId == cid && it.itemId == ref)).length == 0
      then (.error .notFound, s)
      else
        let s1 : Store :=
          { s with items :=
              s.items.filter (fun it => !(it.collectionId == cid && it.itemId == ref)) }
        (.ok (), touchCollection s1 cid now)

/-- Result of a successful move: the fresh row plus the two collection names
(used in the success message). -/
structure MoveResult where
  movedItem : Item
  sourceName : String
  targetName : String
  deriving DecidableEq

/-- PUT /collections/move-item (src/routes/collections.ts, the db.transaction
block).  Validation, owner checks on both collections, source item lookup,
duplicate check in the target, target capacity check, delete from source,
insert into target with a fresh creation timestamp, touch both collections.
Any failure rolls the transaction back: the original store is returned. -/
def moveItem (s : Store) (u : String) (ref : String) (src tgt : Nat)
    (now : Nat) : Except ApiError MoveResult × Store :=
  if ref.length == 0 then (.error .invalidInput, s)
  else if src == tgt then (.error .invalidInput, s)
  else if src == 0 || tgt == 0 then (.error .invalidInput, s)
  else
    match findCollection s u src with
    | none => (.error .notFound, s)
    | some sourceCollection =>
      match findCollection s u tgt with
      | none => (.error .notFound, s)
      | some targetCollection =>
        match findItem s src ref with
        | none => (.error .notFound, s)
        | some itemToMove =>
          if (findItem s tgt ref).isSome then (.error .conflict, s)
          else if 5 ≤ countItems s tgt then (.error .capacityExceeded, s)
          else
            if (s.items.filter (fun it => it.collectionId == src && it.itemId == ref)).length == 0
            then (.error .notFound, s)
            else
              let movedItem : Item :=
                { id := s.nextItemId, collectionId := tgt,
                  itemId := itemToMove.itemId, note := itemToMove.note,
                  createdAt := now }
              let newItems :=
                s.items.filter (fun it => !(it.collectionId == src && it.itemId == ref))
                  ++ [movedItem]
              let s1 : Store :=
                { s with items := newItems, nextItemId := s.nextItemId + 1 }
              (.ok { movedItem := movedItem, sourceName := sourceCollection.name,
                     targetName := targetCollection.name },
               touchCollection (touchCollection s1 src now) tgt now)

/-- DELETE /collections/:id: owner check, delete the items, delete the
collection. -/
def deleteCollection (s : Store) (u : String) (cid : Nat) :
    Except ApiError Unit × Store :=
  if cid == 0 then (.error .invalidInput, s)
  else
    match findCollection s u cid with
    | none => (.error .notFound, s)
    | some _ =>
      (.ok (),
       { s with items := s.items.filter (fun it => !(it.collectionId == cid)),
                collections := s.collections.filter (fun c => !(c.id == cid)) })

/-- Response of GET /collections/:id. -/
structure CollectionDetail where
  collection : Collection
  items : List Item
  itemCount : Nat
  deriving DecidableEq

/-- Items ordered by creation time ascending (`orderBy(createdAt)`). -/
def createdAsc (a b : Item) : Prop := a.createdAt ≤ b.createdAt

instance : DecidableRel createdAsc := fun a b => Nat.decLe a.createdAt b.createdAt

/-- GET /collections/:id: owner check, then the collection with its items. -/
def getCollection (s : Store) (u : String) (cid : Nat) :
    Except ApiError CollectionDetail × Store :=
  if cid == 0 then (.error .invalidInput, s)
  else
    match findCollection s u cid with
    | none => (.error .notFound, s)
    | some c =>
      let its := List.insertionSort createdAsc (itemsOf s cid)
      (.ok { collection := c, items := its, itemCount := its.length }, s)

/-- One element of the GET /collections response. -/
structure CollectionSummary where
  id : Nat
  name : String
  description : Option String
  userId : String
  createdAt : Nat
  updatedAt : Nat
  itemCount : Nat
  relevanceScore : Nat
  deriving DecidableEq

/-- Contribution of one item: `item.note && item.note.trim() !== '' ? 2 : 1`. -/
def itemScore (it : Item) : Nat :=
  match it.note with
  | none => 1
  | some n => if jsTrim n == "" then 1 else 2

/-- The reduce computing a collection's relevance score. -/
def relevanceScore (items : List Item) : Nat :=
  items.foldl (fun score it => score + itemScore it) 0

/-- The summary built for one collection by the list handler. -/
def summarize (s : Store) (c : Collection) : CollectionSummary :=
  { id := c.id, name := c.name, description := c.description, userId := c.userId,
    createdAt := c.createdAt, updatedAt := c.updatedAt,
    itemCount := (itemsOf s c.id).length,
    relevanceScore := relevanceScore (itemsOf s c.id) }

/-- The SQL ordering of the list query: creation time descending. -/
def collCreatedDesc (a b : Collection) : Prop := b.createdAt ≤ a.createdAt

instance : DecidableRel collCreatedDesc := fun a b => Nat.decLe b.createdAt a.createdAt

/-- The comparator of the final JS sort: higher relevance score first, ties
broken by later creation time first. -/
def scoreOrder (a b : CollectionSummary) : Prop :=
  b.relevanceScore < a.relevanceScore ∨
    (a.relevanceScore = b.relevanceScore ∧ b.createdAt ≤ a.createdAt)

instance : DecidableRel scoreOrder := fun a b =>
  inferInstanceAs (Decidable (b.relevanceScore < a.relevanceScore ∨
    (a.relevanceScore = b.relevanceScore ∧ b.createdAt ≤ a.createdAt)))

instance : IsTotal CollectionSummary scoreOrder :=
  ⟨fun a b => by
    unfold scoreOrder
    rcases Nat.lt_trichotomy a.relevanceScore b.relevanceScore with h | h | h
    · exact Or.inr (Or.inl h)
    · rcases Nat.le_total b.createdAt a.createdAt with h2 | h2
      · exact Or.inl (Or.inr ⟨h, h2⟩)
      · exact Or.inr (Or.inr ⟨h.symm, h2⟩)
    · exact Or.inl (Or.inl h)⟩

instance : IsTrans CollectionSummary scoreOrder :=
  ⟨fun a b c hab hbc => by
    unfold scoreOrder at *
    rcases hab with h1 | ⟨h1, h1c⟩ <;> rcases hbc with h2 | ⟨h2, h2c⟩
    · exact Or.inl (Nat.lt_trans h2 h1)
    · exact Or.inl (h2 ▸ h1)
    · exact Or.inl (h1 ▸ h2)
    · exact Or.inr ⟨h1.trans h2, Nat.le_trans h2c h1c⟩⟩

instance : IsTotal Collection collCreatedDesc :=
  ⟨fun a b => Nat.le_total b.createdAt a.createdAt⟩

instance : IsTrans Collection collCreatedDesc :=
  ⟨fun _ _ _ hab hbc => Nat.le_trans hbc hab⟩

/-- GET /collections: the caller's collections, scored and sorted — the SQL
query orders by creation time descending, the summaries carry item counts and
relevance scores, and the final in-memory sort orders by score descending with
the creation-time tiebreak. -/
def listCollections (s : Store) (u : String) : List CollectionSummary :=
  let cs := List.insertionSort collCreatedDesc
    (s.collections.filter (fun c => c.userId == u))
  List.insertionSort scoreOrder (cs.map (summarize s))

/-- One parsed, authenticated request to the exposed operations. -/
inductive Request where
  | create (u name : String) (descr : Option String) (now : Nat)
  | list (u : String)
  | get (u : String) (cid : Nat)
  | add (u : String) (cid : Nat) (ref : String) (note : Option String) (now : Nat)
  | move (u ref : String) (src tgt : Nat) (now : Nat)
  | remove (u : String) (cid : Nat) (ref : String) (now : Nat)
  | delete (u : String) (cid : Nat)

/-- The authenticated user of a request (the X-User-ID header). -/
def Request.user : Request → String
  | .create u _ _ _ => u
  | .list u => u
  | .get u _ => u
  | .add u _ _ _ _ => u
  | .move u _ _ _ _ => u
  | .remove u _ _ _ => u
  | .delete u _ => u

/-- The store observable after a request returns. -/
def applyReq (req : Request) (s : Store) : Store :=
  match req with
  | .create u name descr now => (createCollection s u name descr now).2
  | .list _ => s
  | .get u cid => (getCollection s u cid).2
  | .add u cid ref note now => (addItem s u cid ref note now).2
  | .move u ref src tgt now => (moveItem s u ref src tgt now).2
  | .remove u cid ref now => (removeItem s u cid ref now).2
  | .delete u cid => (deleteCollection s u cid).2

/-- States reachable from the empty store by sequences of exposed
operations. -/
inductive Reachable : Store → Prop where
  | empty : Reachable Store.empty
  | step (req : Request) {s : Store} : Reachable s → Reachable (applyReq req s)

/-- The capacity invariant: every collection holds at most 5 items. -/
def CapInv (s : Store) : Prop := ∀ cid : Nat, countItems s cid ≤ 5

/-- Does some collection row among `cols` with the item's collection id belong
to `u`?  (Item ownership is transitively the collection's owner.) -/
def ownsItemRow (cols : List Collection) (u : String) (it : Item) : Bool :=
  cols.any (fun c => c.id == it.collectionId && c.userId == u)

/-- The rows owned by `u`: `u`'s collections and the items lying in them. -/
def ownedRows (s : Store) (u : String) : List Collection × List Item :=
  (s.collections.filter (fun c => c.userId == u),
   s.items.filter (ownsItemRow s.collections u))

/-- The store restricted to the rows owned by `u` (id sequences kept). -/
def restrictStore (s : Store) (u : String) : Store :=
  { users := s.users.filter (fun x => x == u),
    collections := s.collections.filter (fun c => c.userId == u),
    items := s.items.filter (ownsItemRow s.collections u),
    nextCollectionId := s.nextCollectionId,
    nextItemId := s.nextItemId }

/-- Collection ids are unique (the `serial` primary key of the schema). -/
def CollIdsNodup (s : Store) : Prop :=
  (s.collections.map (fun c => c.id)).Nodup

/-- The composite key (collection id, item reference id) is unique across the
item rows (`collection_item_unique_idx` of src/db/schema.ts). -/
def UniqueItemKeys (s : Store) : Prop :=
  s.items.Pairwise (fun a b => ¬(a.collectionId = b.collectionId ∧ a.itemId = b.itemId))

/-! ### General list lemmas -/

theorem foldl_add_map_sum (f : Item → Nat) (l : List Item) (a : Nat) :
    l.foldl (fun acc it => acc + f it) a = a + (l.map f).sum := by
  induction l generalizing a with
  | nil => simp
  | cons x xs ih => simp [ih, Nat.add_assoc]

theorem filter_filter_of_imp {α : Type} (l : List α) (q p : α → Bool)
    (h : ∀ x ∈ l, p x = true → q x = true) :
    (l.filter q).filter p = l.filter p := by
  rw [List.filter_filter]
  apply List.filter_congr
  intro x hx
  by_cases hp : p x = true
  · simp [hp, h x hx hp]
  · simp [Bool.not_eq_true] at hp
    simp [hp]

/-! ### C3: the relevance scorer -/

/-- C3: the relevance score of a collection equals the sum over its items of 2
for an item with a non-null note of non-whitespace content and 1 for any other
item; two items of which exactly one has a meaningful note score 3, and an
empty collection scores 0. -/
theorem relevance_score_spec :
    (∀ (s : Store) (c : Collection),
      (summarize s c).relevanceScore
        = ((itemsOf s c.id).map (fun it =>
            match it.note with
            | none => 1
            | some n => if jsTrim n = "" then 1 else 2)).sum)
    ∧ relevanceScore [] = 0
    ∧ relevanceScore
        [{ id := 1, collectionId := 1, itemId := "a", note := some "great read", createdAt := 0 },
         { id := 2, collectionId := 1, itemId := "b", note := none, createdAt := 0 }] = 3 := by
  refine ⟨fun s c => ?_, rfl, by decide⟩
  show relevanceScore (itemsOf s c.id) = _
  unfold relevanceScore
  rw [foldl_add_map_sum itemScore, Nat.zero_add]
  congr 1
  apply List.map_congr_left
  intro it _
  unfold itemScore
  cases it.note with
  | none => rfl
  | some n => by_cases h : jsTrim n = "" <;> simp [h]

/-! ### C4 and C9: the name allocator -/

theorem genNameFrom_pure_finds (taken : String → Bool) (base : String) (n : Nat)
    (hfree : taken (candidateName base n) = false) :
    ∀ r c, c + r = 100 → c ≤ n → n < 100 →
      (∀ k, c ≤ k → k < n → taken (candidateName base k) = true) →
      genNameFrom (fun nm => (Except.ok (taken nm) : Except Unit Bool)) base c r
        = .ok (candidateName base n) := by
  intro r
  induction r with
  | zero => intro c hcr hcn hn _; omega
  | succ r ih =>
    intro c hcr hcn hn hbefore
    by_cases hc : c = n
    · subst hc
      simp [genNameFrom, hfree]
    · have hlt : c < n := Nat.lt_of_le_of_ne hcn hc
      have htaken : taken (candidateName base c) = true :=
        hbefore c (Nat.le_refl c) hlt
      simp only [genNameFrom, htaken]
      exact ih (c + 1) (by omega) hlt hn (fun k hk1 hk2 => hbefore k (by omega) hk2)

theorem genNameFrom_exhausts (taken : String → Bool) (base : String)
    (htaken : ∀ k, k < 100 → taken (candidateName base k) = true) :
    ∀ r c, c + r = 100 →
      genNameFrom (fun nm => (Except.ok (taken nm) : Except Unit Bool)) base c r
        = .error .nameAllocationExhausted := by
  intro r
  induction r with
  | zero => intro c _; simp [genNameFrom]
  | succ r ih =>
    intro c hcr
    have ht : taken (candidateName base c) = true := htaken c (by omega)
    simp only [genNameFrom, ht]
    exact ih (c + 1) (by omega)

/-- C4: the allocator probes baseName, "baseName (1)", "baseName (2)", … and
returns the first candidate not taken by the owner; if all 100 attempts are
taken it fails with NameAllocationExhausted; creating "Favorites" twice for
the same owner yields collections named "Favorites" and "Favorites (1)". -/
theorem name_allocation_spec :
    (∀ (taken : String → Bool) (base : String) (n : Nat),
      n < 100 → (∀ k, k < n → taken (candidateName base k) = true) →
      taken (candidateName base n) = false →
      generateUniqueCollectionName
          (fun nm => (Except.ok (taken nm) : Except Unit Bool)) base
        = .ok (candidateName base n))
    ∧ (∀ (taken : String → Bool) (base : String),
      (∀ k, k < 100 → taken (candidateName base k) = true) →
      generateUniqueCollectionName
          (fun nm => (Except.ok (taken nm) : Except Unit Bool)) base
        = .error .nameAllocationExhausted)
    ∧ ((createCollection Store.empty "u1" "Favorites" none 0).1.toOption.map
        Collection.name = some "Favorites")
    ∧ ((createCollection (createCollection Store.empty "u1" "Favorites" none 0).2
          "u1" "Favorites" none 1).1.toOption.map Collection.name
        = some "Favorites (1)") := by
  refine ⟨?_, ?_, by decide, by decide⟩
  · intro taken base n hn hbefore hfree
    exact genNameFrom_pure_finds taken base n hfree 100 0 rfl (Nat.zero_le n) hn
      (fun k _ hk => hbefore k hk)
  · intro taken base htaken
    exact genNameFrom_exhausts taken base htaken 100 0 rfl

/-- Witness for C4: with exactly the base name taken, the allocator returns
the first counter candidate. -/
theorem name_allocation_spec_witness :
    generateUniqueCollectionName
        (fun nm => (Except.ok (nm == "Favorites") : Except Unit Bool)) "Favorites"
      = .ok (candidateName "Favorites" 1) :=
  name_allocation_spec.1 (fun nm => nm == "Favorites") "Favorites" 1 (by decide)
    (fun k hk => by interval_cases k; decide) (by decide)

theorem genNameFrom_probe_error {ε : Type} (probe : String → Except ε Bool)
    (base : String) (n : Nat) (e : ε)
    (herr : probe (candidateName base n) = .error e) :
    ∀ r c, c + r = 100 → c ≤ n → n < 100 →
      (∀ k, c ≤ k → k < n → probe (candidateName base k) = .ok true) →
      genNameFrom probe base c r = .ok (candidateName base n) := by
  intro r
  induction r with
  | zero => intro c hcr hcn hn _; omega
  | succ r ih =>
    intro c hcr hcn hn hbefore
    by_cases hc : c = n
    · subst hc
      simp [genNameFrom, herr]
    · have hlt : c < n := Nat.lt_of_le_of_ne hcn hc
      have hok : probe (candidateName base c) = .ok true :=
        hbefore c (Nat.le_refl c) hlt
      simp only [genNameFrom, hok]
      exact ih (c + 1) (by omega) hlt hn (fun k hk1 hk2 => hbefore k (by omega) hk2)

/-- C9: if the store query of a probe throws, the allocator catches the error
and returns the current candidate as a success, without having verified its
availability and without signaling any failure. -/
theorem probe_error_returns_candidate {ε : Type} (probe : String → Except ε Bool)
    (base : String) (n : Nat) (e : ε) (hn : n < 100)
    (hbefore : ∀ k, k < n → probe (candidateName base k) = .ok true)
    (herr : probe (candidateName base n) = .error e) :
    generateUniqueCollectionName probe base = .ok (candidateName base n) :=
  genNameFrom_probe_error probe base n e herr 100 0 rfl (Nat.zero_le n) hn
    (fun k _ hk => hbefore k hk)

/-- Witness for C9: a probe failing immediately makes the allocator return the
base name unverified. -/
theorem probe_error_returns_candidate_witness :
    generateUniqueCollectionName
        (fun _ => (Except.error () : Except Unit Bool)) "Favorites"
      = .ok "Favorites" :=
  probe_error_returns_candidate (fun _ => (Except.error () : Except Unit Bool))
    "Favorites" 0 () (by decide) (fun k hk => absurd hk (Nat.not_lt_zero k)) rfl

/-! ### C2: move atomicity -/

/-- C2: a move that fails — in particular at the target-capacity check —
returns the original store: the item is still retrievable from the source and
the target's items are unchanged. -/
theorem move_atomic (s : Store) (u ref : String) (src tgt now : Nat)
    (e : ApiError) (h : (moveItem s u ref src tgt now).1 = .error e) :
    (moveItem s u ref src tgt now).2 = s
      ∧ findItem (moveItem s u ref src tgt now).2 src ref = findItem s src ref
      ∧ itemsOf (moveItem s u ref src tgt now).2 tgt = itemsOf s tgt := by
  have h2 : (moveItem s u ref src tgt now).2 = s := by
    revert h
    unfold moveItem
    repeat' split
    all_goals intro h
    all_goals first | rfl | simp at h
  exact ⟨h2, by rw [h2], by rw [h2]⟩

/-- A store in which collection 1 ("Books") holds item "x" and collection 2
("Movies") is full with 5 items. -/
def fullTargetStore : Store :=
  { users := ["u1"],
    collections :=
      [{ id := 1, name := "Books", description := none, userId := "u1",
         createdAt := 0, updatedAt := 0 },
       { id := 2, name := "Movies", description := none, userId := "u1",
         createdAt := 0, updatedAt := 0 }],
    items :=
      [{ id := 1, collectionId := 1, itemId := "x", note := some "great read", createdAt := 1 },
       { id := 2, collectionId := 2, itemId := "m1", note := none, createdAt := 2 },
       { id := 3, collectionId := 2, itemId := "m2", note := none, createdAt := 3 },
       { id := 4, collectionId := 2, itemId := "m3", note := none, createdAt := 4 },
       { id := 5, collectionId := 2, itemId := "m4", note := none, createdAt := 5 },
       { id := 6, collectionId := 2, itemId := "m5", note := none, createdAt := 6 }],
    nextCollectionId := 3,
    nextItemId := 7 }

/-- Witness for C2: moving into the full collection fails with
CapacityExceeded and observably changes nothing. -/
theorem move_atomic_witness :
    (moveItem fullTargetStore "u1" "x" 1 2 9).1 = .error .capacityExceeded
      ∧ ((moveItem fullTargetStore "u1" "x" 1 2 9).2 = fullTargetStore
         ∧ findItem (moveItem fullTargetStore "u1" "x" 1 2 9).2 1 "x"
             = findItem fullTargetStore 1 "x"
         ∧ itemsOf (moveItem fullTargetStore "u1" "x" 1 2 9).2 2
             = itemsOf fullTargetStore 2) :=
  ⟨by decide, move_atomic fullTargetStore "u1" "x" 1 2 9 .capacityExceeded (by decide)⟩

/-! ### C5: the capacity pre-check of addItem -/

/-- C5: adding a fresh item reference to a collection already holding 5 items
fails with CapacityExceeded; the store is unchanged and the collection still
holds exactly 5 items. -/
theorem add_item_capacity_exceeded (s : Store) (u : String) (cid : Nat)
    (ref : String) (note : Option String) (now : Nat)
    (hval : validAddInput ref note = true) (hcid : cid ≠ 0)
    (hown : (findCollection s u cid).isSome = true)
    (hfresh : findItem s cid ref = none)
    (hfull : countItems s cid = 5) :
    (addItem s u cid ref note now).1 = .error .capacityExceeded
      ∧ (addItem s u cid ref note now).2 = s
      ∧ countItems (addItem s u cid ref note now).2 cid = 5 := by
  obtain ⟨c, hc⟩ := Option.isSome_iff_exists.mp hown
  unfold addItem
  simp [hval, hcid, hc, hfresh, hfull]

/-- A store in which collection 1 ("Books") is full with items a…e. -/
def fullBooksStore : Store :=
  { users := ["u1"],
    collections :=
      [{ id := 1, name := "Books", description := none, userId := "u1",
         createdAt := 0, updatedAt := 0 }],
    items :=
      [{ id := 1, collectionId := 1, itemId := "a", note := none, createdAt := 1 },
       { id := 2, collectionId := 1, itemId := "b", note := none, createdAt := 2 },
       { id := 3, collectionId := 1, itemId := "c", note := none, createdAt := 3 },
       { id := 4, collectionId := 1, itemId := "d", note := none, createdAt := 4 },
       { id := 5, collectionId := 1, itemId := "e", note := none, createdAt := 5 }],
    nextCollectionId := 2,
    nextItemId := 6 }

/-- Witness for C5: adding "f" to the full "Books" collection fails with
CapacityExceeded and the count stays 5. -/
theorem add_item_capacity_exceeded_witness :
    (addItem fullBooksStore "u1" 1 "f" none 6).1 = .error .capacityExceeded
      ∧ (addItem fullBooksStore "u1" 1 "f" none 6).2 = fullBooksStore
      ∧ countItems (addItem fullBooksStore "u1" 1 "f" none 6).2 1 = 5 :=
  add_item_capacity_exceeded fullBooksStore "u1" 1 "f" none 6
    (by decide) (by decide) (by decide) (by decide) (by decide)

/-! ### C7: ordering of the collection listing -/

/-- C7: in the sequence returned by listCollections, every adjacent pair is
ordered by strictly greater relevance score, or by equal scores and
non-increasing creation time. -/
theorem list_collections_sorted (s : Store) (u : String) (i : Nat)
    (h : i + 1 < (listCollections s u).length) :
    ((listCollections s u).get ⟨i + 1, h⟩).relevanceScore
        < ((listCollections s u).get ⟨i, Nat.lt_of_succ_lt h⟩).relevanceScore
      ∨ (((listCollections s u).get ⟨i, Nat.lt_of_succ_lt h⟩).relevanceScore
           = ((listCollections s u).get ⟨i + 1, h⟩).relevanceScore
         ∧ ((listCollections s u).get ⟨i + 1, h⟩).createdAt
             ≤ ((listCollections s u).get ⟨i, Nat.lt_of_succ_lt h⟩).createdAt) := by
  have hs : List.Sorted scoreOrder (listCollections s u) :=
    List.sorted_insertionSort scoreOrder _
  exact hs.rel_get_of_lt (Fin.mk_lt_mk.mpr (Nat.lt_succ_self i))

/-- Witness for C7 on a concrete store with two scored collections. -/
theorem list_collections_sorted_witness :
    ((listCollections fullTargetStore "u1").get ⟨1, by decide⟩).relevanceScore
        < ((listCollections fullTargetStore "u1").get ⟨0, by decide⟩).relevanceScore
      ∨ (((listCollections fullTargetStore "u1").get ⟨0, by decide⟩).relevanceScore
           = ((listCollections fullTargetStore "u1").get ⟨1, by decide⟩).relevanceScore
         ∧ ((listCollections fullTargetStore "u1").get ⟨1, by decide⟩).createdAt
             ≤ ((listCollections fullTargetStore "u1").get ⟨0, by decide⟩).createdAt) :=
  list_collections_sorted fullTargetStore "u1" 0 (by decide)

/-! ### C1: the capacity invariant -/

theorem capInv_of_items_eq (s' s : Store) (h : s'.items = s.items)
    (hs : CapInv s) : CapInv s' := by
  intro cid
  unfold countItems itemsOf
  rw [h]
  exact hs cid

theorem ensureUser_items (s : Store) (u : String) :
    (ensureUser s u).items = s.items := by
  unfold ensureUser; split <;> rfl

theorem ensureUser_collections (s : Store) (u : String) :
    (ensureUser s u).collections = s.collections := by
  unfold ensureUser; split <;> rfl

theorem createCollection_items (s : Store) (u name : String)
    (descr : Option String) (now : Nat) :
    (createCollection s u name descr now).2.items = s.items := by
  unfold createCollection
  split
  · cases hgen : generateUniqueCollectionName (storeProbe (ensureUser s u) u) name with
    | error e => simp [hgen, ensureUser_items]
    | ok nm => simp [hgen, ensureUser_items]
  · rfl

theorem getCollection_state (s : Store) (u : String) (cid : Nat) :
    (getCollection s u cid).2 = s := by
  unfold getCollection
  repeat' split
  all_goals rfl

theorem countItems_touch (s : Store) (cid now x : Nat) :
    countItems (touchCollection s cid now) x = countItems s x := rfl

theorem countItems_items_append (s' s : Store) (it : Item)
    (h : s'.items = s.items ++ [it]) (x : Nat) :
    countItems s' x = countItems s x + (if it.collectionId == x then 1 else 0) := by
  unfold countItems itemsOf
  rw [h, List.filter_append, List.length_append]
  congr 1
  by_cases hp : (it.collectionId == x) = true <;> simp [hp]

theorem countItems_items_filter (s' s : Store) (q : Item → Bool)
    (h : s'.items = s.items.filter q) (x : Nat) :
    countItems s' x ≤ countItems s x := by
  unfold countItems itemsOf
  rw [h]
  exact ((List.filter_sublist _).filter _).length_le

theorem addItem_capInv (s : Store) (u : String) (cid : Nat) (ref : String)
    (note : Option String) (now : Nat) (hs : CapInv s) :
    CapInv (addItem s u cid ref note now).2 := by
  unfold addItem
  repeat' split
  all_goals try exact hs
  all_goals
    intro x
    dsimp only
    rw [countItems_touch, countItems_items_append _ s _ rfl x]
    by_cases hx : cid = x
    · subst hx
      simp
      omega
    · simp [hx]
      exact hs x

theorem removeItem_capInv (s : Store) (u : String) (cid : Nat) (ref : String)
    (now : Nat) (hs : CapInv s) : CapInv (removeItem s u cid ref now).2 := by
  unfold removeItem
  repeat' split
  all_goals try exact hs
  intro x
  dsimp only
  rw [countItems_touch]
  have hf := countItems_items_filter
    { s with items := s.items.filter (fun it => !(it.collectionId == cid && it.itemId == ref)) }
    s (fun it => !(it.collectionId == cid && it.itemId == ref)) rfl x
  have h5 := hs x
  omega

theorem moveItem_capInv (s : Store) (u ref : String) (src tgt now : Nat)
    (hs : CapInv s) : CapInv (moveItem s u ref src tgt now).2 := by
  unfold moveItem
  repeat' split
  all_goals try exact hs
  all_goals
    intro x
    dsimp only
    rw [countItems_touch, countItems_touch,
      countItems_items_append _
        { s with items := s.items.filter (fun it => !(it.collectionId == src && it.itemId == ref)) }
        _ rfl x]
    have hf := countItems_items_filter
      { s with items := s.items.filter (fun it => !(it.collectionId == src && it.itemId == ref)) }
      s (fun it => !(it.collectionId == src && it.itemId == ref)) rfl x
    have h5 := hs x
    by_cases hx : tgt = x
    · subst hx
      simp at hf ⊢
      omega
    · simp [hx] at hf ⊢
      omega

theorem deleteCollection_capInv (s : Store) (u : String) (cid : Nat)
    (hs : CapInv s) : CapInv (deleteCollection s u cid).2 := by
  unfold deleteCollection
  repeat' split
  all_goals try exact hs
  intro x
  dsimp only
  have hf := countItems_items_filter
    { s with collections := s.collections.filter (fun c => !(c.id == cid)),
             items := s.items.filter (fun it => !(it.collectionId == cid)) }
    s (fun it => !(it.collectionId == cid)) rfl x
  have h5 := hs x
  omega

theorem capInv_empty : CapInv Store.empty := by
  intro cid
  unfold countItems itemsOf Store.empty
  simp

theorem capInv_applyReq (req : Request) (s : Store) (hs : CapInv s) :
    CapInv (applyReq req s) := by
  cases req with
  | create u name descr now =>
    exact capInv_of_items_eq _ s (createCollection_items s u name descr now) hs
  | list u => exact hs
  | get u cid =>
    exact capInv_of_items_eq _ s
      (by show (getCollection s u cid).2.items = s.items; rw [getCollection_state]) hs
  | add u cid ref note now => exact addItem_capInv s u cid ref note now hs
  | move u ref src tgt now => exact moveItem_capInv s u ref src tgt now hs
  | remove u cid ref now => exact removeItem_capInv s u cid ref now hs
  | delete u cid => exact deleteCollection_capInv s u cid hs

/-- C1: every state reachable from the empty store by sequences of the exposed
operations satisfies the 5-item ceiling for every collection; in particular
addItem and moveItem preserve the capacity invariant. -/
theorem capacity_invariant :
    (∀ s : Store, Reachable s → CapInv s)
    ∧ (∀ (s : Store) (u : String) (cid : Nat) (ref : String)
        (note : Option String) (now : Nat),
        CapInv s → CapInv (addItem s u cid ref note now).2)
    ∧ (∀ (s : Store) (u ref : String) (src tgt now : Nat),
        CapInv s → CapInv (moveItem s u ref src tgt now).2) := by
  refine ⟨?_, ?_, ?_⟩
  · intro s hr
    induction hr with
    | empty => exact capInv_empty
    | step req hr ih => exact capInv_applyReq req _ ih
  · intro s u cid ref note now hs
    exact addItem_capInv s u cid ref note now hs
  · intro s u ref src tgt now hs
    exact moveItem_capInv s u ref src tgt now hs

/-- Witness for C1 along a concrete reachable run: create a collection, then
add an item; the resulting count respects the ceiling. -/
theorem capacity_invariant_witness :
    countItems (applyReq (.add "u1" 1 "a" none 1)
      (applyReq (.create "u1" "Books" none 0) Store.empty)) 1 ≤ 5 :=
  capacity_invariant.1 _
    (Reachable.step _ (Reachable.step _ Reachable.empty)) 1

/-! ### C6 and C8: successful moves -/

/-- The fresh row inserted into the target by a successful move: same
reference id and note, fresh creation timestamp. -/
def movedItemRow (s : Store) (tgt now : Nat) (itm : Item) : Item :=
  { id := s.nextItemId, collectionId := tgt, itemId := itm.itemId,
    note := itm.note, createdAt := now }

/-- The item-table state written by a successful move, before the two
timestamp touches: matching rows deleted from the source, fresh row appended
for the target. -/
def postMoveStore (s : Store) (ref : String) (src tgt now : Nat) (itm : Item) : Store :=
  let newItems :=
    s.items.filter (fun it => !(it.collectionId == src && it.itemId == ref))
      ++ [movedItemRow s tgt now itm]
  { s with items := newItems, nextItemId := s.nextItemId + 1 }

theorem moveItem_ok_inv (s : Store) (u ref : String) (src tgt now : Nat)
    (r : MoveResult) (h : (moveItem s u ref src tgt now).1 = .ok r) :
    ∃ sc tc itm, findCollection s u src = some sc
      ∧ findCollection s u tgt = some tc
      ∧ findItem s src ref = some itm
      ∧ findItem s tgt ref = none
      ∧ countItems s tgt < 5
      ∧ (src == tgt) = false
      ∧ (src == 0 || tgt == 0) = false
      ∧ (ref.length == 0) = false
      ∧ r = { movedItem := movedItemRow s tgt now itm,
              sourceName := sc.name, targetName := tc.name }
      ∧ (moveItem s u ref src tgt now).2
          = touchCollection (touchCollection
              (postMoveStore s ref src tgt now itm) src now) tgt now := by
  revert h
  unfold moveItem
  repeat' split
  all_goals intro h
  all_goals simp at h
  subst h
  refine ⟨_, _, _, ?_, ?_, ?_, ?_, ?_, ?_, ?_, ?_, rfl, rfl⟩
  · assumption
  · assumption
  · assumption
  · simp_all
  · omega
  · simp_all
  · simp_all
  · simp_all

theorem findItem_touch (s : Store) (cid now cid2 : Nat) (ref : String) :
    findItem (touchCollection s cid now) cid2 ref = findItem s cid2 ref := rfl

theorem findItem_postMove_src (s : Store) (ref : String) (src tgt now : Nat)
    (itm : Item) (hne : src ≠ tgt) :
    findItem (postMoveStore s ref src tgt now itm) src ref = none := by
  unfold findItem postMoveStore
  rw [List.find?_append]
  have h1 : (s.items.filter
      (fun it => !(it.collectionId == src && it.itemId == ref))).find?
        (fun it => it.collectionId == src && it.itemId == ref) = none := by
    rw [List.find?_eq_none]
    intro x hx
    have hkeep := (List.mem_filter.mp hx).2
    simp only [Bool.not_eq_eq_eq_not, Bool.not_true] at hkeep
    simp [hkeep]
  have h2 : (([movedItemRow s tgt now itm] : List Item)).find?
      (fun it => it.collectionId == src && it.itemId == ref) = none := by
    have hcid : ((movedItemRow s tgt now itm).collectionId == src) = false :=
      beq_eq_false_iff_ne.mpr (Ne.symm hne)
    simp [List.find?, hcid]
  rw [h1, h2]
  rfl

theorem findItem_postMove_tgt (s : Store) (ref : String) (src tgt now : Nat)
    (itm : Item) (href : itm.itemId = ref)
    (hdup : findItem s tgt ref = none) :
    findItem (postMoveStore s ref src tgt now itm) tgt ref
      = some (movedItemRow s tgt now itm) := by
  unfold findItem postMoveStore
  unfold findItem at hdup
  rw [List.find?_append]
  have h1 : (s.items.filter
      (fun it => !(it.collectionId == src && it.itemId == ref))).find?
        (fun it => it.collectionId == tgt && it.itemId == ref) = none := by
    rw [List.find?_eq_none] at hdup ⊢
    intro x hx
    exact hdup x (List.mem_filter.mp hx).1
  have h2 : (([movedItemRow s tgt now itm] : List Item)).find?
      (fun it => it.collectionId == tgt && it.itemId == ref)
        = some (movedItemRow s tgt now itm) := by
    have hp : ((movedItemRow s tgt now itm).collectionId == tgt
        && (movedItemRow s tgt now itm).itemId == ref) = true := by
      simp [movedItemRow, href]
    simp [List.find?, hp]
  rw [h1, h2]
  rfl

theorem length_filter_key_le_one (l : List Item) (p : Item → Bool)
    (hp : ∀ a b, p a = true → p b = true →
      a.collectionId = b.collectionId ∧ a.itemId = b.itemId)
    (hkeys : l.Pairwise (fun a b =>
      ¬(a.collectionId = b.collectionId ∧ a.itemId = b.itemId))) :
    (l.filter p).length ≤ 1 := by
  induction l with
  | nil => simp
  | cons a l ih =>
    rcases List.pairwise_cons.mp hkeys with ⟨ha, hl⟩
    by_cases hpa : p a = true
    · rw [List.filter_cons_of_pos hpa]
      have hnil : l.filter p = [] :=
        List.filter_eq_nil_iff.mpr (fun x hx hpx => ha x hx (hp a x hpa hpx))
      simp [hnil]
    · rw [List.filter_cons_of_neg (by simpa using hpa)]
      exact ih hl

theorem one_le_length_filter_of_find? (l : List Item) (p : Item → Bool)
    (itm : Item) (hfind : l.find? p = some itm) :
    1 ≤ (l.filter p).length := by
  have hmem : itm ∈ l.filter p :=
    List.mem_filter.mpr ⟨List.mem_of_find?_eq_some hfind, List.find?_some hfind⟩
  have := List.length_pos.mpr (List.ne_nil_of_mem hmem)
  omega

theorem length_filter_split (l : List Item) (q p : Item → Bool) :
    (l.filter (fun a => q a && p a)).length
      + (l.filter (fun a => q a && !p a)).length
      = (l.filter q).length := by
  induction l with
  | nil => rfl
  | cons a l ih =>
    by_cases hq : q a = true
    · by_cases hp : p a = true
      · simp only [List.filter_cons, hq, hp]
        simp
        omega
      · simp only [List.filter_cons, hq, Bool.not_eq_true] at *
        simp [hp]
        omega
    · simp only [List.filter_cons, Bool.not_eq_true] at *
      simp [hq]
      omega

theorem countItems_postMove_src (s : Store) (ref : String) (src tgt now : Nat)
    (itm : Item) (hne : src ≠ tgt)
    (hfind : findItem s src ref = some itm) (hkeys : UniqueItemKeys s) :
    countItems (postMoveStore s ref src tgt now itm) src + 1 = countItems s src := by
  have hitm2 : s.items.find?
      (fun it => it.collectionId == src && it.itemId == ref) = some itm := hfind
  unfold countItems itemsOf postMoveStore
  dsimp only
  rw [List.filter_append]
  have hmi : ((movedItemRow s tgt now itm).collectionId == src) = false :=
    beq_eq_false_iff_ne.mpr (Ne.symm hne)
  have h0 : ([movedItemRow s tgt now itm] : List Item).filter
      (fun it => it.collectionId == src) = [] := by
    simp only [List.filter, hmi]
  rw [h0, List.append_nil, List.filter_filter]
  have hone : (s.items.filter (fun a => (a.collectionId == src)
      && (a.collectionId == src && a.itemId == ref))).length = 1 := by
    have hcongr : s.items.filter (fun a => (a.collectionId == src)
        && (a.collectionId == src && a.itemId == ref))
          = s.items.filter (fun a => a.collectionId == src && a.itemId == ref) := by
      apply List.filter_congr
      intro x _
      by_cases hx : (x.collectionId == src && x.itemId == ref) = true
      · have : (x.collectionId == src) = true := by
          simp only [Bool.and_eq_true] at hx
          exact hx.1
        simp [this, hx]
      · simp only [Bool.not_eq_true] at hx
        simp [hx]
    rw [hcongr]
    have hle := length_filter_key_le_one s.items
      (fun a => a.collectionId == src && a.itemId == ref)
      (by
        intro a b hA hB
        simp only [Bool.and_eq_true, beq_iff_eq] at hA hB
        exact ⟨hA.1.trans hB.1.symm, hA.2.trans hB.2.symm⟩)
      hkeys
    have hge := one_le_length_filter_of_find? s.items
      (fun a => a.collectionId == src && a.itemId == ref) itm hitm2
    omega
  have hsplit := length_filter_split s.items
    (fun a => a.collectionId == src)
    (fun a => a.collectionId == src && a.itemId == ref)
  have hcongr2 : s.items.filter (fun a => (a.collectionId == src)
      && !(a.collectionId == src && a.itemId == ref))
        = s.items.filter (fun it => ((fun it => it.collectionId == src) it)
            && ((fun it => !(it.collectionId == src && it.itemId == ref)) it)) := rfl
  omega

theorem countItems_postMove_tgt (s : Store) (ref : String) (src tgt now : Nat)
    (itm : Item) (hne : src ≠ tgt) :
    countItems (postMoveStore s ref src tgt now itm) tgt = countItems s tgt + 1 := by
  unfold countItems itemsOf postMoveStore
  dsimp only
  rw [List.filter_append]
  have hmi : ((movedItemRow s tgt now itm).collectionId == tgt) = true := by
    simp [movedItemRow]
  have h0 : ([movedItemRow s tgt now itm] : List Item).filter
      (fun it => it.collectionId == tgt) = [movedItemRow s tgt now itm] := by
    simp only [List.filter, hmi]
  have himp : ∀ x ∈ s.items, (x.collectionId == tgt) = true →
      (!(x.collectionId == src && x.itemId == ref)) = true := by
    intro x _ hpx
    have hxt : x.collectionId = tgt := by simpa using hpx
    have hxs : (x.collectionId == src) = false := by
      rw [hxt]
      exact beq_eq_false_iff_ne.mpr (Ne.symm hne)
    simp [hxs]
  rw [h0, filter_filter_of_imp s.items
    (fun it => !(it.collectionId == src && it.itemId == ref))
    (fun it => it.collectionId == tgt) himp]
  simp

theorem findCollection_touch_isSome (s : Store) (cid now : Nat) (u : String)
    (cid2 : Nat) :
    (findCollection (touchCollection s cid now) u cid2).isSome
      = (findCollection s u cid2).isSome := by
  unfold findCollection touchCollection
  dsimp only
  rw [List.find?_map]
  have hcomp : ((fun c : Collection => c.userId == u && c.id == cid2) ∘
      (fun c : Collection => if c.id == cid then { c with updatedAt := now } else c))
        = (fun c : Collection => c.userId == u && c.id == cid2) := by
    funext c
    by_cases hc : (c.id == cid) = true <;> simp [Function.comp, hc]
  rw [hcomp]
  cases s.collections.find? (fun c => c.userId == u && c.id == cid2) <;> rfl

theorem findCollection_postMove (s : Store) (ref : String) (src tgt now : Nat)
    (itm : Item) (u : String) (cid : Nat) :
    findCollection (postMoveStore s ref src tgt now itm) u cid
      = findCollection s u cid := rfl

theorem moveItem_notFound_eq (s2 : Store) (u ref : String) (src tgt now : Nat)
    (hlen : (ref.length == 0) = false) (hne : (src == tgt) = false)
    (hpos : (src == 0 || tgt == 0) = false)
    (hsome : (findCollection s2 u src).isSome = true)
    (htsome : (findCollection s2 u tgt).isSome = true)
    (hni : findItem s2 src ref = none) :
    moveItem s2 u ref src tgt now = (.error .notFound, s2) := by
  obtain ⟨sc, hsc2⟩ := Option.isSome_iff_exists.mp hsome
  obtain ⟨tc, htc2⟩ := Option.isSome_iff_exists.mp htsome
  unfold moveItem
  simp [hlen, hne, hpos, hsc2, htc2, hni]

/-- C8: after a successful move, repeating the identical call fails with
NotFound — the item is no longer in the source — and changes nothing. -/
theorem move_not_idempotent (s : Store) (u ref : String) (src tgt now now2 : Nat)
    (r : MoveResult) (h : (moveItem s u ref src tgt now).1 = .ok r) :
    (moveItem (moveItem s u ref src tgt now).2 u ref src tgt now2).1
        = .error .notFound
      ∧ (moveItem (moveItem s u ref src tgt now).2 u ref src tgt now2).2
          = (moveItem s u ref src tgt now).2 := by
  obtain ⟨sc, tc, itm, hsc, htc, hitm, hdup, hcap, hne, hpos, hlen, hr, hst⟩ :=
    moveItem_ok_inv s u ref src tgt now r h
  have hne' : src ≠ tgt := beq_eq_false_iff_ne.mp hne
  have hsome : (findCollection (moveItem s u ref src tgt now).2 u src).isSome = true := by
    rw [hst, findCollection_touch_isSome, findCollection_touch_isSome,
      findCollection_postMove, hsc]
    rfl
  have htsome : (findCollection (moveItem s u ref src tgt now).2 u tgt).isSome = true := by
    rw [hst, findCollection_touch_isSome, findCollection_touch_isSome,
      findCollection_postMove, htc]
    rfl
  have hni : findItem (moveItem s u ref src tgt now).2 src ref = none := by
    rw [hst, findItem_touch, findItem_touch]
    exact findItem_postMove_src s ref src tgt now itm hne'
  have heq := moveItem_notFound_eq ((moveItem s u ref src tgt now).2) u ref src tgt
    now2 hlen hne hpos hsome htsome hni
  exact ⟨by rw [heq], by rw [heq]⟩

/-- A store in which collection 1 ("Books") holds item "x" and collection 2
("Movies") is empty, ready for a successful move. -/
def moveReadyStore : Store :=
  { users := ["u1"],
    collections :=
      [{ id := 1, name := "Books", description := none, userId := "u1",
         createdAt := 0, updatedAt := 0 },
       { id := 2, name := "Movies", description := none, userId := "u1",
         createdAt := 0, updatedAt := 0 }],
    items :=
      [{ id := 1, collectionId := 1, itemId := "x", note := some "great read", createdAt := 1 }],
    nextCollectionId := 3,
    nextItemId := 2 }

/-- Witness for C8: the concrete second move on the concrete store fails with
NotFound and leaves the state as after the first move. -/
theorem move_not_idempotent_witness :
    (moveItem (moveItem moveReadyStore "u1" "x" 1 2 7).2 "u1" "x" 1 2 8).1
        = .error .notFound
      ∧ (moveItem (moveItem moveReadyStore "u1" "x" 1 2 7).2 "u1" "x" 1 2 8).2
          = (moveItem moveReadyStore "u1" "x" 1 2 7).2 :=
  move_not_idempotent moveReadyStore "u1" "x" 1 2 7 8
    { movedItem := { id := 2, collectionId := 2, itemId := "x",
                     note := some "great read", createdAt := 7 },
      sourceName := "Books", targetName := "Movies" }
    (by decide)

/-- C6: after a successful move, the moved item sits in the target with the
same reference id and note but a fresh creation timestamp, and is gone from
the source; the source count drops by one and the target count rises by one.
The (collection id, item reference id) uniqueness of the item table — the
schema's unique index — is assumed. -/
theorem move_success_spec (s : Store) (u ref : String) (src tgt now : Nat)
    (r : MoveResult) (hkeys : UniqueItemKeys s)
    (h : (moveItem s u ref src tgt now).1 = .ok r) :
    ∃ itm, findItem s src ref = some itm
      ∧ r.movedItem.itemId = ref
      ∧ r.movedItem.note = itm.note
      ∧ r.movedItem.createdAt = now
      ∧ r.movedItem.collectionId = tgt
      ∧ findItem (moveItem s u ref src tgt now).2 src ref = none
      ∧ findItem (moveItem s u ref src tgt now).2 tgt ref = some r.movedItem
      ∧ countItems (moveItem s u ref src tgt now).2 src + 1 = countItems s src
      ∧ countItems (moveItem s u ref src tgt now).2 tgt = countItems s tgt + 1 := by
  obtain ⟨sc, tc, itm, hsc, htc, hitm, hdup, hcap, hne, hpos, hlen, hr, hst⟩ :=
    moveItem_ok_inv s u ref src tgt now r h
  have hne' : src ≠ tgt := beq_eq_false_iff_ne.mp hne
  have hitm2 : s.items.find?
      (fun it => it.collectionId == src && it.itemId == ref) = some itm := hitm
  have href : itm.itemId = ref := by
    have hp := List.find?_some hitm2
    simp only [Bool.and_eq_true, beq_iff_eq] at hp
    exact hp.2
  subst hr
  refine ⟨itm, hitm, href, rfl, rfl, rfl, ?_, ?_, ?_, ?_⟩
  · rw [hst, findItem_touch, findItem_touch]
    exact findItem_postMove_src s ref src tgt now itm hne'
  · rw [hst, findItem_touch, findItem_touch]
    exact findItem_postMove_tgt s ref src tgt now itm href hdup
  · rw [hst, countItems_touch, countItems_touch]
    exact countItems_postMove_src s ref src tgt now itm hne' hitm hkeys
  · rw [hst, countItems_touch, countItems_touch]
    exact countItems_postMove_tgt s ref src tgt now itm hne'

/-- Witness for C6: the concrete successful move of "x" from "Books" to
"Movies". -/
theorem move_success_spec_witness :
    ∃ itm, findItem moveReadyStore 1 "x" = some itm
      ∧ ({ movedItem := { id := 2, collectionId := 2, itemId := "x",
                          note := some "great read", createdAt := 7 },
           sourceName := "Books", targetName := "Movies" } : MoveResult).movedItem.itemId = "x"
      ∧ ({ movedItem := { id := 2, collectionId := 2, itemId := "x",
                          note := some "great read", createdAt := 7 },
           sourceName := "Books", targetName := "Movies" } : MoveResult).movedItem.note = itm.note
      ∧ ({ movedItem := { id := 2, collectionId := 2, itemId := "x",
                          note := some "great read", createdAt := 7 },
           sourceName := "Books", targetName := "Movies" } : MoveResult).movedItem.createdAt = 7
      ∧ ({ movedItem := { id := 2, collectionId := 2, itemId := "x",
                          note := some "great read", createdAt := 7 },
           sourceName := "Books", targetName := "Movies" } : MoveResult).movedItem.collectionId = 2
      ∧ findItem (moveItem moveReadyStore "u1" "x" 1 2 7).2 1 "x" = none
      ∧ findItem (moveItem moveReadyStore "u1" "x" 1 2 7).2 2 "x"
          = some ({ movedItem := { id := 2, collectionId := 2, itemId := "x",
                                   note := some "great read", createdAt := 7 },
                    sourceName := "Books", targetName := "Movies" } : MoveResult).movedItem
      ∧ countItems (moveItem moveReadyStore "u1" "x" 1 2 7).2 1 + 1
          = countItems moveReadyStore 1
      ∧ countItems (moveItem moveReadyStore "u1" "x" 1 2 7).2 2
          = countItems moveReadyStore 2 + 1 :=
  move_success_spec moveReadyStore "u1" "x" 1 2 7
    { movedItem := { id := 2, collectionId := 2, itemId := "x",
                     note := some "great read", createdAt := 7 },
      sourceName := "Books", targetName := "Movies" }
    (by unfold UniqueItemKeys moveReadyStore; simp)
    (by decide)

/-! ### C10: user isolation -/

theorem any_map_pred (cols : List Collection) (f : Collection → Collection)
    (p : Collection → Bool) (hf : ∀ c, p (f c) = p c) :
    (cols.map f).any p = cols.any p := by
  induction cols with
  | nil => rfl
  | cons c cs ih => simp only [List.map_cons, List.any_cons, hf, ih]

theorem filter_user_map_eq (v : String) (cols : List Collection)
    (f : Collection → Collection)
    (huid : ∀ c, (f c).userId = c.userId)
    (hfix : ∀ c ∈ cols, c.userId = v → f c = c) :
    (cols.map f).filter (fun c => c.userId == v)
      = cols.filter (fun c => c.userId == v) := by
  induction cols with
  | nil => rfl
  | cons c cs ih =>
    have ihtail := ih (fun c2 h2 hv2 => hfix c2 (List.mem_cons_of_mem c h2) hv2)
    rw [List.map_cons]
    by_cases hc : c.userId = v
    · have hfc : f c = c := hfix c (List.mem_cons_self c cs) hc
      rw [hfc, List.filter_cons_of_pos (by simp [hc]),
        List.filter_cons_of_pos (by simp [hc]), ihtail]
    · rw [List.filter_cons_of_neg (by simp [huid c, hc]),
        List.filter_cons_of_neg (by simp [hc]), ihtail]

theorem ownsItemRow_map_touch (cols : List Collection) (cid now : Nat)
    (v : String) (it : Item) :
    ownsItemRow (cols.map (fun c => if c.id == cid then { c with updatedAt := now } else c)) v it
      = ownsItemRow cols v it := by
  unfold ownsItemRow
  apply any_map_pred
  intro c
  by_cases hc : (c.id == cid) = true <;> simp [hc]

theorem ownedRows_touch (s : Store) (cid now : Nat) (v : String)
    (hv : ∀ c ∈ s.collections, c.id = cid → c.userId ≠ v) :
    ownedRows (touchCollection s cid now) v = ownedRows s v := by
  unfold ownedRows touchCollection
  dsimp only
  congr 1
  · apply filter_user_map_eq
    · intro c
      by_cases hc : (c.id == cid) = true <;> simp [hc]
    · intro c hc hcv
      have hne : ¬ c.id = cid := fun h => hv c hc h hcv
      simp [beq_eq_false_iff_ne.mpr hne]
  · apply List.filter_congr
    intro it _
    exact ownsItemRow_map_touch s.collections cid now v it

theorem owner_unique_of_nodup (s : Store) (u v : String) (cid : Nat)
    (c : Collection) (hnd : CollIdsNodup s)
    (hfc : findCollection s u cid = some c) (huv : u ≠ v) :
    ∀ c2 ∈ s.collections, c2.id = cid → c2.userId ≠ v := by
  intro c2 hc2 hid2 hv2
  have hcmem : c ∈ s.collections := List.mem_of_find?_eq_some hfc
  have hcp := List.find?_some hfc
  simp only [Bool.and_eq_true, beq_iff_eq] at hcp
  have heq : c2 = c :=
    List.inj_on_of_nodup_map hnd hc2 hcmem (by rw [hid2, hcp.2])
  rw [heq, hcp.1] at hv2
  exact huv hv2

theorem ownsItemRow_eq_false (cols : List Collection) (v : String) (it : Item)
    (hv : ∀ c ∈ cols, c.id = it.collectionId → c.userId ≠ v) :
    ownsItemRow cols v it = false := by
  unfold ownsItemRow
  rw [List.any_eq_false]
  intro c hc
  simp only [Bool.and_eq_true, beq_iff_eq, not_and]
  exact fun hid hvv => hv c hc hid hvv

theorem ownedRows_append_collection (s : Store) (c0 : Collection) (n : Nat)
    (v : String) (hc0 : c0.userId ≠ v) :
    ownedRows { s with collections := s.collections ++ [c0], nextCollectionId := n } v
      = ownedRows s v := by
  unfold ownedRows
  dsimp only
  congr 1
  · rw [List.filter_append]
    have h0 : ([c0] : List Collection).filter (fun c => c.userId == v) = [] := by
      simp [List.filter, beq_eq_false_iff_ne.mpr hc0]
    rw [h0, List.append_nil]
  · apply List.filter_congr
    intro it _
    unfold ownsItemRow
    rw [List.any_append]
    have h0 : ([c0] : List Collection).any
        (fun c => c.id == it.collectionId && c.userId == v) = false := by
      simp [List.any, beq_eq_false_iff_ne.mpr hc0]
    rw [h0, Bool.or_false]

theorem ownedRows_append_item (s : Store) (it0 : Item) (n : Nat) (v : String)
    (hit0 : ownsItemRow s.collections v it0 = false) :
    ownedRows { s with items := s.items ++ [it0], nextItemId := n } v
      = ownedRows s v := by
  unfold ownedRows
  dsimp only
  congr 1
  rw [List.filter_append]
  have h0 : ([it0] : List Item).filter (ownsItemRow s.collections v) = [] := by
    simp [List.filter, hit0]
  rw [h0, List.append_nil]

theorem ownedRows_filter_items (s : Store) (q : Item → Bool) (v : String)
    (himp : ∀ x ∈ s.items, ownsItemRow s.collections v x = true → q x = true) :
    ownedRows { s with items := s.items.filter q } v = ownedRows s v := by
  unfold ownedRows
  dsimp only
  congr 1
  exact filter_filter_of_imp s.items q (ownsItemRow s.collections v) himp

theorem collectionId_ne_of_owned (s : Store) (v : String) (x : Item) (cid : Nat)
    (hv : ∀ c ∈ s.collections, c.id = cid → c.userId ≠ v)
    (hox : ownsItemRow s.collections v x = true) :
    (x.collectionId == cid) = false := by
  unfold ownsItemRow at hox
  rw [List.any_eq_true] at hox
  obtain ⟨c, hc, hcp⟩ := hox
  simp only [Bool.and_eq_true, beq_iff_eq] at hcp
  have : ¬ x.collectionId = cid := by
    intro hxc
    exact hv c hc (hcp.1.trans hxc) hcp.2
  simp [this]

theorem ownedRows_ensureUser (s : Store) (u v : String) :
    ownedRows (ensureUser s u) v = ownedRows s v := by
  unfold ownedRows ensureUser
  split <;> rfl

theorem ownedRows_create (s : Store) (u name : String) (descr : Option String)
    (now : Nat) (v : String) (huv : u ≠ v) :
    ownedRows (createCollection s u name descr now).2 v = ownedRows s v := by
  unfold createCollection
  split
  · cases hgen : generateUniqueCollectionName (storeProbe (ensureUser s u) u) name with
    | error e =>
      simp only [hgen]
      exact ownedRows_ensureUser s u v
    | ok nm =>
      simp only [hgen]
      exact (ownedRows_append_collection (ensureUser s u) _ _ v huv).trans
        (ownedRows_ensureUser s u v)
  · rfl

theorem ownedRows_addItem (s : Store) (u : String) (cid : Nat) (ref : String)
    (note : Option String) (now : Nat) (v : String)
    (hnd : CollIdsNodup s) (huv : u ≠ v) :
    ownedRows (addItem s u cid ref note now).2 v = ownedRows s v := by
  unfold addItem
  split
  · rfl
  split
  · rfl
  cases hfc : findCollection s u cid with
  | none => rfl
  | some c =>
    dsimp only
    split
    · rfl
    split
    · rfl
    have hv := owner_unique_of_nodup s u v cid c hnd hfc huv
    dsimp only
    rw [ownedRows_touch]
    · exact ownedRows_append_item s _ _ v (ownsItemRow_eq_false s.collections v _ hv)
    · exact hv

theorem ownedRows_removeItem (s : Store) (u : String) (cid : Nat) (ref : String)
    (now : Nat) (v : String) (hnd : CollIdsNodup s) (huv : u ≠ v) :
    ownedRows (removeItem s u cid ref now).2 v = ownedRows s v := by
  unfold removeItem
  split
  · rfl
  split
  · rfl
  cases hfc : findCollection s u cid with
  | none => rfl
  | some c =>
    dsimp only
    split
    · rfl
    have hv := owner_unique_of_nodup s u v cid c hnd hfc huv
    dsimp only
    rw [ownedRows_touch]
    · apply ownedRows_filter_items
      intro x hx hox
      have := collectionId_ne_of_owned s v x cid hv hox
      simp [this]
    · exact hv

theorem hv_map_touch (cols : List Collection) (cid now tid : Nat) (v : String)
    (hv : ∀ c ∈ cols, c.id = tid → c.userId ≠ v) :
    ∀ c ∈ cols.map (fun c => if c.id == cid then { c with updatedAt := now } else c),
      c.id = tid → c.userId ≠ v := by
  intro c hc
  rw [List.mem_map] at hc
  obtain ⟨c0, hc0, rfl⟩ := hc
  by_cases h0 : (c0.id == cid) = true
  · rw [if_pos h0]
    exact hv c0 hc0
  · rw [if_neg h0]
    exact hv c0 hc0

theorem ownedRows_postMove (s : Store) (ref : String) (src tgt now : Nat)
    (itm : Item) (v : String)
    (hsrc : ∀ c ∈ s.collections, c.id = src → c.userId ≠ v)
    (htgt : ∀ c ∈ s.collections, c.id = tgt → c.userId ≠ v) :
    ownedRows (postMoveStore s ref src tgt now itm) v = ownedRows s v := by
  unfold ownedRows postMoveStore
  dsimp only
  congr 1
  rw [List.filter_append]
  have h0 : ([movedItemRow s tgt now itm] : List Item).filter
      (ownsItemRow s.collections v) = [] := by
    have hfalse : ownsItemRow s.collections v (movedItemRow s tgt now itm) = false :=
      ownsItemRow_eq_false s.collections v _ htgt
    simp [List.filter, hfalse]
  rw [h0, List.append_nil]
  apply filter_filter_of_imp
  intro x _ hox
  have := collectionId_ne_of_owned s v x src hsrc hox
  simp [this]

theorem ownedRows_moveItem (s : Store) (u ref : String) (src tgt now : Nat)
    (v : String) (hnd : CollIdsNodup s) (huv : u ≠ v) :
    ownedRows (moveItem s u ref src tgt now).2 v = ownedRows s v := by
  unfold moveItem
  split
  · rfl
  split
  · rfl
  split
  · rfl
  cases hsc : findCollection s u src with
  | none => rfl
  | some sc =>
    dsimp only
    cases htc : findCollection s u tgt with
    | none => rfl
    | some tc =>
      dsimp only
      cases hitm : findItem s src ref with
      | none => rfl
      | some itm =>
        dsimp only
        split
        · rfl
        split
        · rfl
        split
        · rfl
        have hvsrc := owner_unique_of_nodup s u v src sc hnd hsc huv
        have hvtgt := owner_unique_of_nodup s u v tgt tc hnd htc huv
        dsimp only
        rw [ownedRows_touch]
        · rw [ownedRows_touch]
          · exact ownedRows_postMove s ref src tgt now itm v hvsrc hvtgt
          · exact hvsrc
        · exact hv_map_touch s.collections src now tgt v hvtgt

theorem any_filter_eq_of_imp (cols : List Collection) (q p : Collection → Bool)
    (himp : ∀ c ∈ cols, p c = true → q c = true) :
    (cols.filter q).any p = cols.any p := by
  induction cols with
  | nil => rfl
  | cons c cs ih =>
    have ihtail := ih (fun c2 h2 hp2 => himp c2 (List.mem_cons_of_mem c h2) hp2)
    by_cases hq : q c = true
    · rw [List.filter_cons_of_pos hq]
      simp only [List.any_cons]
      rw [ihtail]
    · rw [List.filter_cons_of_neg (by simpa using hq)]
      have hp : p c = false := by
        by_contra hcon
        rw [Bool.not_eq_false] at hcon
        exact hq (himp c (List.mem_cons_self c cs) hcon)
      simp only [List.any_cons, hp, Bool.false_or]
      exact ihtail

theorem ownedRows_deleteCollection (s : Store) (u : String) (cid : Nat)
    (v : String) (hnd : CollIdsNodup s) (huv : u ≠ v) :
    ownedRows (deleteCollection s u cid).2 v = ownedRows s v := by
  unfold deleteCollection
  split
  · rfl
  cases hfc : findCollection s u cid with
  | none => rfl
  | some c =>
    have hv := owner_unique_of_nodup s u v cid c hnd hfc huv
    dsimp only
    unfold ownedRows
    dsimp only
    congr 1
    · apply filter_filter_of_imp
      intro x hx hpx
      have hne : ¬ x.id = cid := by
        intro hxc
        have hxv : x.userId = v := by simpa using hpx
        exact hv x hx hxc hxv
      simp [beq_eq_false_iff_ne.mpr hne]
    · have hpt : ∀ x : Item, ownsItemRow
          (s.collections.filter (fun c2 => !(c2.id == cid))) v x
            = ownsItemRow s.collections v x := by
        intro x
        unfold ownsItemRow
        apply any_filter_eq_of_imp
        intro c2 hc2 hp2
        simp only [Bool.and_eq_true, beq_iff_eq] at hp2
        have hne : ¬ c2.id = cid := by
          intro hxc
          exact hv c2 hc2 hxc hp2.2
        simp [beq_eq_false_iff_ne.mpr hne]
      calc (s.items.filter (fun it => !(it.collectionId == cid))).filter
              (ownsItemRow (s.collections.filter (fun c2 => !(c2.id == cid))) v)
          = (s.items.filter (fun it => !(it.collectionId == cid))).filter
              (ownsItemRow s.collections v) := by
            apply List.filter_congr
            intro x _
            exact hpt x
        _ = s.items.filter (ownsItemRow s.collections v) := by
            apply filter_filter_of_imp
            intro x hx hox
            have := collectionId_ne_of_owned s v x cid hv hox
            simp [this]

theorem ownedRows_applyReq (req : Request) (s : Store) (v : String)
    (hnd : CollIdsNodup s) (hne : req.user ≠ v) :
    ownedRows (applyReq req s) v = ownedRows s v := by
  cases req with
  | create u name descr now => exact ownedRows_create s u name descr now v hne
  | list u => rfl
  | get u cid =>
    show ownedRows (getCollection s u cid).2 v = ownedRows s v
    rw [getCollection_state]
  | add u cid ref note now => exact ownedRows_addItem s u cid ref note now v hnd hne
  | move u ref src tgt now => exact ownedRows_moveItem s u ref src tgt now v hnd hne
  | remove u cid ref now => exact ownedRows_removeItem s u cid ref now v hnd hne
  | delete u cid => exact ownedRows_deleteCollection s u cid v hnd hne

theorem itemsOf_restrict (s : Store) (u : String) (c : Collection)
    (hc : c ∈ s.collections) (hcu : c.userId = u) :
    itemsOf (restrictStore s u) c.id = itemsOf s c.id := by
  unfold itemsOf restrictStore
  dsimp only
  apply filter_filter_of_imp
  intro x _ hpx
  unfold ownsItemRow
  rw [List.any_eq_true]
  refine ⟨c, hc, ?_⟩
  simp only [Bool.and_eq_true, beq_iff_eq]
  have hxc : x.collectionId = c.id := by simpa using hpx
  exact ⟨hxc.symm, hcu⟩

theorem summarize_restrict (s : Store) (u : String) (c : Collection)
    (hc : c ∈ s.collections) (hcu : c.userId = u) :
    summarize (restrictStore s u) c = summarize s c := by
  unfold summarize
  rw [itemsOf_restrict s u c hc hcu]

theorem listCollections_restrict (s : Store) (u : String) :
    listCollections (restrictStore s u) u = listCollections s u := by
  unfold listCollections
  have hcols : (restrictStore s u).collections.filter (fun c => c.userId == u)
      = s.collections.filter (fun c => c.userId == u) := by
    unfold restrictStore
    dsimp only
    exact filter_filter_of_imp s.collections _ _ (fun x _ h => h)
  rw [hcols]
  dsimp only
  congr 1
  apply List.map_congr_left
  intro c hcmem
  have hperm := List.perm_insertionSort collCreatedDesc
    (s.collections.filter (fun c => c.userId == u))
  have hmem2 := hperm.mem_iff.mp hcmem
  have hc : c ∈ s.collections := (List.mem_filter.mp hmem2).1
  have hcu : c.userId = u := by
    have := (List.mem_filter.mp hmem2).2
    simpa using this
  exact summarize_restrict s u c hc hcu

theorem getCollection_other_user_notFound (s : Store) (u : String) (cid : Nat)
    (hcid : cid ≠ 0) (hv : ∀ c ∈ s.collections, c.id = cid → c.userId ≠ u) :
    (getCollection s u cid).1 = .error .notFound := by
  have hfc : findCollection s u cid = none := by
    unfold findCollection
    rw [List.find?_eq_none]
    intro c hc
    simp only [Bool.and_eq_true, beq_iff_eq, not_and]
    exact fun hcu hcid2 => hv c hc hcid2 hcu
  unfold getCollection
  simp [hfc, hcid]

/-- C10: user isolation.  (a) No operation invoked as one user changes
another user's owned rows — their collections and the items inside them.
(b) The listing depends only on the caller's owned rows: restricting the
store to them does not change the response.  (c) Reading a collection that
does not belong to the caller reports NotFound. -/
theorem user_isolation :
    (∀ (req : Request) (s : Store) (v : String), CollIdsNodup s →
        req.user ≠ v → ownedRows (applyReq req s) v = ownedRows s v)
    ∧ (∀ (s : Store) (u : String),
        listCollections (restrictStore s u) u = listCollections s u)
    ∧ (∀ (s : Store) (u : String) (cid : Nat), cid ≠ 0 →
        (∀ c ∈ s.collections, c.id = cid → c.userId ≠ u) →
        (getCollection s u cid).1 = .error .notFound) :=
  ⟨fun req s v hnd hne => ownedRows_applyReq req s v hnd hne,
   fun s u => listCollections_restrict s u,
   fun s u cid hcid hv => getCollection_other_user_notFound s u cid hcid hv⟩

/-- Witness for C10: a concrete add by one user leaves the other user's owned
rows unchanged, and a concrete foreign read is NotFound. -/
theorem user_isolation_witness :
    ownedRows (applyReq (.add "u1" 1 "y" none 3) moveReadyStore) "u2"
        = ownedRows moveReadyStore "u2"
      ∧ (getCollection moveReadyStore "u2" 1).1 = .error .notFound :=
  ⟨user_isolation.1 (.add "u1" 1 "y" none 3) moveReadyStore "u2"
      (by unfold CollIdsNodup moveReadyStore; decide) (by decide),
   user_isolation.2.2 moveReadyStore "u2" 1 (by decide)
      (by
        intro c hc hid
        unfold moveReadyStore at hc
        simp at hc
        rcases hc with h | h <;> rw [h] <;> decide)⟩
